import Mathlib

/-!
Verification of the Corebrain API query pipeline.

Shallow embedding of the query translation and execution pipeline:
JSON-like values, the MongoDB deny-list sanitizer (app/core/security.py),
the ingress request validator (app/middleware/request_validator.py),
the MongoDBQuery model normalization (app/models/database_query.py),
the AI query generator fallbacks and explanation generator
(app/core/querys.py), the execution adapters and SQL schema
introspection (app/services/db_service.py), the target-collection
selector (app/core/utils.py) and the Redis cache wrapper
(app/core/cache.py).  External effects (the language model, the
database drivers, langdetect, Python str rendering) are passed in as
explicit oracle arguments.
-/

/-- JSON-like values: the payloads that flow through the pipeline
(dict = obj, list = arr, plus scalar leaves). -/
inductive JVal where
  | str : String → JVal
  | num : Int → JVal
  | bool : Bool → JVal
  | null : JVal
  | arr : List JVal → JVal
  | obj : List (String × JVal) → JVal
deriving Repr

namespace CoreSec

/-- The deny list of `sanitize_mongo_query` (app/core/security.py line 51). -/
def dangerous_operators : List String := ["$where", "$expr", "$function"]

mutual

/-- `sanitize_mongo_query` (app/core/security.py lines 46-71): walk the
dict, drop deny-listed keys, recurse into dict values and into dict
elements of list values; everything else passes through. -/
def sanitize_mongo_query : List (String × JVal) → List (String × JVal)
  | [] => []
  | (k, v) :: rest =>
    if dangerous_operators.contains k then
      sanitize_mongo_query rest
    else
      (k, sanitizeEntryVal v) :: sanitize_mongo_query rest

/-- The per-value branch of `sanitize_mongo_query`: dict values are
sanitized recursively, list values elementwise, scalars unchanged. -/
def sanitizeEntryVal : JVal → JVal
  | JVal.obj d => JVal.obj (sanitize_mongo_query d)
  | JVal.arr l => JVal.arr (sanitizeListItems l)
  | v => v

/-- The list comprehension inside `sanitize_mongo_query`: dict items are
sanitized, any other item (scalars, and nested lists) is kept as is. -/
def sanitizeListItems : List JVal → List JVal
  | [] => []
  | JVal.obj d :: rest => JVal.obj (sanitize_mongo_query d) :: sanitizeListItems rest
  | v :: rest => v :: sanitizeListItems rest

end

mutual

/-- Does a deny-listed key occur anywhere in the value, at any depth,
including below lists nested inside lists? -/
def hasDangerVal : JVal → Bool
  | JVal.obj d => hasDangerObj d
  | JVal.arr l => hasDangerItems l
  | _ => false

/-- Deny-listed key anywhere in a dict, at any depth. -/
def hasDangerObj : List (String × JVal) → Bool
  | [] => false
  | (k, v) :: rest =>
    dangerous_operators.contains k || hasDangerVal v || hasDangerObj rest

/-- Deny-listed key anywhere below a list, at any depth. -/
def hasDangerItems : List JVal → Bool
  | [] => false
  | v :: rest => hasDangerVal v || hasDangerItems rest

end

mutual

/-- Deny-listed key at a position the sanitizer actually visits: dict
keys, dict values, and dicts that are direct elements of a list value.
Dicts buried inside a list that is itself inside a list are not
visited. -/
def reachDangerObj : List (String × JVal) → Bool
  | [] => false
  | (k, v) :: rest =>
    dangerous_operators.contains k || reachDangerEntryVal v || reachDangerObj rest

/-- Reachable deny-listed key below an entry value. -/
def reachDangerEntryVal : JVal → Bool
  | JVal.obj d => reachDangerObj d
  | JVal.arr l => reachDangerItems l
  | _ => false

/-- Reachable deny-listed key below a list value: only dict elements
are inspected. -/
def reachDangerItems : List JVal → Bool
  | [] => false
  | JVal.obj d :: rest => reachDangerObj d || reachDangerItems rest
  | _ :: rest => reachDangerItems rest

end

mutual

theorem sanitize_idem (q : List (String × JVal)) :
    sanitize_mongo_query (sanitize_mongo_query q) = sanitize_mongo_query q := by
  match q with
  | [] => rfl
  | (k, v) :: rest =>
    by_cases hk : k ∈ dangerous_operators
    · simp [sanitize_mongo_query, hk, sanitize_idem rest]
    · simp [sanitize_mongo_query, hk, sanitize_idem rest, sanitizeEntryVal_idem v]

theorem sanitizeEntryVal_idem (v : JVal) :
    sanitizeEntryVal (sanitizeEntryVal v) = sanitizeEntryVal v := by
  match v with
  | JVal.obj d => simp [sanitizeEntryVal, sanitize_idem d]
  | JVal.arr l => simp [sanitizeEntryVal, sanitizeListItems_idem l]
  | JVal.str s => rfl
  | JVal.num n => rfl
  | JVal.bool b => rfl
  | JVal.null => rfl

theorem sanitizeListItems_idem (l : List JVal) :
    sanitizeListItems (sanitizeListItems l) = sanitizeListItems l := by
  match l with
  | [] => rfl
  | JVal.obj d :: rest =>
    simp [sanitizeListItems, sanitize_idem d, sanitizeListItems_idem rest]
  | JVal.str s :: rest => simp [sanitizeListItems, sanitizeListItems_idem rest]
  | JVal.num n :: rest => simp [sanitizeListItems, sanitizeListItems_idem rest]
  | JVal.bool b :: rest => simp [sanitizeListItems, sanitizeListItems_idem rest]
  | JVal.null :: rest => simp [sanitizeListItems, sanitizeListItems_idem rest]
  | JVal.arr l2 :: rest => simp [sanitizeListItems, sanitizeListItems_idem rest]

end

mutual

theorem reachDanger_sanitize (q : List (String × JVal)) :
    reachDangerObj (sanitize_mongo_query q) = false := by
  match q with
  | [] => rfl
  | (k, v) :: rest =>
    by_cases hk : k ∈ dangerous_operators
    · simp [sanitize_mongo_query, hk, reachDanger_sanitize rest]
    · simp [sanitize_mongo_query, hk, reachDangerObj, reachDanger_sanitize rest,
        reachDangerEntryVal_sanitize v]

theorem reachDangerEntryVal_sanitize (v : JVal) :
    reachDangerEntryVal (sanitizeEntryVal v) = false := by
  match v with
  | JVal.obj d => simp [sanitizeEntryVal, reachDangerEntryVal, reachDanger_sanitize d]
  | JVal.arr l => simp [sanitizeEntryVal, reachDangerEntryVal, reachDangerItems_sanitize l]
  | JVal.str s => rfl
  | JVal.num n => rfl
  | JVal.bool b => rfl
  | JVal.null => rfl

theorem reachDangerItems_sanitize (l : List JVal) :
    reachDangerItems (sanitizeListItems l) = false := by
  match l with
  | [] => rfl
  | JVal.obj d :: rest =>
    simp [sanitizeListItems, reachDangerItems, reachDanger_sanitize d,
      reachDangerItems_sanitize rest]
  | JVal.str s :: rest => simp [sanitizeListItems, reachDangerItems, reachDangerItems_sanitize rest]
  | JVal.num n :: rest => simp [sanitizeListItems, reachDangerItems, reachDangerItems_sanitize rest]
  | JVal.bool b :: rest => simp [sanitizeListItems, reachDangerItems, reachDangerItems_sanitize rest]
  | JVal.null :: rest => simp [sanitizeListItems, reachDangerItems, reachDangerItems_sanitize rest]
  | JVal.arr l2 :: rest => simp [sanitizeListItems, reachDangerItems, reachDangerItems_sanitize rest]

end

/-- A dict whose only dangerous key sits inside a dict that is an
element of a list that is itself an element of a list. -/
def deepListNest : List (String × JVal) :=
  [("a", JVal.arr [JVal.arr [JVal.obj [("$where", JVal.str "this.x == 1")]]])]

end CoreSec

/-- C4 counterexample: the deny-list sanitizer does not reach dicts
inside a list nested in a list, so a `$where` key at that depth
survives sanitization, refuting "no key in the deny list survives at
any nesting depth". -/
theorem C4_sanitize_deep_list_counterexample :
    CoreSec.sanitize_mongo_query CoreSec.deepListNest = CoreSec.deepListNest ∧
      CoreSec.hasDangerObj (CoreSec.sanitize_mongo_query CoreSec.deepListNest) = true := by
  constructor
  · rfl
  · rfl

/-- C4 (amended): the deny-list sanitizer is idempotent, and after one
application no deny-listed key remains at any position the sanitizer
visits (dict keys and values at every depth, and dicts that are direct
elements of lists); dicts inside a list nested in a list pass through
unchanged.  The documented scenario holds: the filter with keys "age"
and "$where" maps to the filter with only "age". -/
theorem C4_sanitize_idempotent_and_scoped :
    (∀ q : List (String × JVal),
        CoreSec.sanitize_mongo_query (CoreSec.sanitize_mongo_query q) =
          CoreSec.sanitize_mongo_query q) ∧
    (∀ q : List (String × JVal),
        CoreSec.reachDangerObj (CoreSec.sanitize_mongo_query q) = false) ∧
    CoreSec.sanitize_mongo_query
        [("age", JVal.obj [("$gt", JVal.num 18)]), ("$where", JVal.str "this.a==1")] =
      [("age", JVal.obj [("$gt", JVal.num 18)])] := by
  refine ⟨CoreSec.sanitize_idem, CoreSec.reachDanger_sanitize, ?_⟩
  rfl

namespace ReqVal

/-- `RequestValidator.ALLOWED_OPERATORS`
(app/middleware/request_validator.py lines 13-22). -/
def ALLOWED_OPERATORS : List String :=
  ["$gt", "$lt", "$gte", "$lte", "$eq", "$ne", "$in", "$nin",
   "$group", "$sum", "$avg", "$min", "$max", "$count", "$push",
   "$addToSet", "$first", "$last", "$match", "$project",
   "$lookup", "$unwind", "$sort", "$limit", "$skip",
   "$set", "$unset", "$inc", "$mul", "$rename", "$exists"]

/-- Python `key.startswith("$")`: test on the first character. -/
def startsWithDollar (k : String) : Bool :=
  match k.data with
  | [] => false
  | c :: _ => c == '$'

/-- The pipeline-context test of `_check_for_malicious_patterns`
(line 95): the dict has a `pipeline` key, or it has an `operation` key
whose value is the string `aggregate`. -/
def pipelineCtx (entries : List (String × JVal)) : Bool :=
  entries.any (fun p => p.1 == "pipeline") ||
    (entries.any (fun p => p.1 == "operation") &&
      (match entries.lookup "operation" with
       | some (JVal.str s) => s == "aggregate"
       | _ => false))

mutual

/-- `RequestValidator._check_for_malicious_patterns`
(app/middleware/request_validator.py lines 84-117), with the raised
`HTTPException` modelled as `Except.error` carrying the detail
message.  The Boolean argument is `is_mongodb_route`. -/
def checkPatterns : JVal → Bool → Except String Unit
  | JVal.obj entries, route => checkEntries entries route (pipelineCtx entries)
  | JVal.arr items, route => checkItems items route
  | _, _ => Except.ok ()

/-- The key loop of `_check_for_malicious_patterns` over a dict, given
the route flag and the dict's pipeline-context flag. -/
def checkEntries : List (String × JVal) → Bool → Bool → Except String Unit
  | [], _, _ => Except.ok ()
  | (k, v) :: rest, route, ctx =>
    if startsWithDollar k && !(ALLOWED_OPERATORS.contains k || route || ctx) then
      Except.error ("Operador no permitido: " ++ k)
    else
      match checkPatterns v (route || ctx || k == "pipeline") with
      | Except.ok _ => checkEntries rest route ctx
      | Except.error m => Except.error m

/-- The list branch of `_check_for_malicious_patterns`: each element is
checked with the same route flag. -/
def checkItems : List JVal → Bool → Except String Unit
  | [], _ => Except.ok ()
  | x :: rest, route =>
    match checkPatterns x route with
    | Except.ok _ => checkItems rest route
    | Except.error m => Except.error m

end

mutual

/-- Every dict key in the value, at every depth, either does not start
with `$` or belongs to the allow-list. -/
def allKeysSafeVal : JVal → Bool
  | JVal.obj entries => allKeysSafeEntries entries
  | JVal.arr items => allKeysSafeItems items
  | _ => true

/-- Key-safety over dict entries. -/
def allKeysSafeEntries : List (String × JVal) → Bool
  | [] => true
  | (k, v) :: rest =>
    (!startsWithDollar k || ALLOWED_OPERATORS.contains k) &&
      allKeysSafeVal v && allKeysSafeEntries rest

/-- Key-safety over list elements. -/
def allKeysSafeItems : List JVal → Bool
  | [] => true
  | x :: rest => allKeysSafeVal x && allKeysSafeItems rest

end

mutual

theorem checkPatterns_route (v : JVal) : checkPatterns v true = Except.ok () := by
  match v with
  | JVal.obj entries =>
    simp only [checkPatterns]
    exact checkEntries_route entries (pipelineCtx entries)
  | JVal.arr items =>
    simp only [checkPatterns]
    exact checkItems_route items
  | JVal.str s => rfl
  | JVal.num n => rfl
  | JVal.bool b => rfl
  | JVal.null => rfl

theorem checkEntries_route (entries : List (String × JVal)) (ctx : Bool) :
    checkEntries entries true ctx = Except.ok () := by
  match entries with
  | [] => rfl
  | (k, v) :: rest =>
    simp [checkEntries, checkPatterns_route v, checkEntries_route rest ctx]

theorem checkItems_route (items : List JVal) : checkItems items true = Except.ok () := by
  match items with
  | [] => rfl
  | x :: rest =>
    simp [checkItems, checkPatterns_route x, checkItems_route rest]

end

mutual

theorem checkPatterns_safe (v : JVal) (route : Bool) (h : allKeysSafeVal v = true) :
    checkPatterns v route = Except.ok () := by
  match v with
  | JVal.obj entries =>
    simp only [allKeysSafeVal] at h
    simp only [checkPatterns]
    exact checkEntries_safe entries route (pipelineCtx entries) h
  | JVal.arr items =>
    simp only [allKeysSafeVal] at h
    simp only [checkPatterns]
    exact checkItems_safe items route h
  | JVal.str s => rfl
  | JVal.num n => rfl
  | JVal.bool b => rfl
  | JVal.null => rfl

theorem checkEntries_safe (entries : List (String × JVal)) (route ctx : Bool)
    (h : allKeysSafeEntries entries = true) :
    checkEntries entries route ctx = Except.ok () := by
  match entries with
  | [] => rfl
  | (k, v) :: rest =>
    simp only [allKeysSafeEntries, Bool.and_eq_true] at h
    obtain ⟨⟨hk, hv⟩, hrest⟩ := h
    have hcond : (startsWithDollar k && !(ALLOWED_OPERATORS.contains k || route || ctx)) = false := by
      cases hs : startsWithDollar k with
      | false => simp
      | true =>
        simp [hs] at hk ⊢
        simp [hk]
    simp only [checkEntries, hcond, Bool.false_eq_true, if_false]
    rw [checkPatterns_safe v (route || ctx || k == "pipeline") hv]
    exact checkEntries_safe rest route ctx hrest

theorem checkItems_safe (items : List JVal) (route : Bool)
    (h : allKeysSafeItems items = true) :
    checkItems items route = Except.ok () := by
  match items with
  | [] => rfl
  | x :: rest =>
    simp only [allKeysSafeItems, Bool.and_eq_true] at h
    simp only [checkItems]
    rw [checkPatterns_safe x route h.1]
    exact checkItems_safe rest route h.2

end

mutual

theorem checkPatterns_error_names (v : JVal) (route : Bool) (m : String)
    (h : checkPatterns v route = Except.error m) :
    ∃ k, ReqVal.startsWithDollar k = true ∧ ALLOWED_OPERATORS.contains k = false ∧
      m = "Operador no permitido: " ++ k := by
  match v with
  | JVal.obj entries =>
    simp only [checkPatterns] at h
    exact checkEntries_error_names entries route (pipelineCtx entries) m h
  | JVal.arr items =>
    simp only [checkPatterns] at h
    exact checkItems_error_names items route m h
  | JVal.str s => simp [checkPatterns] at h
  | JVal.num n => simp [checkPatterns] at h
  | JVal.bool b => simp [checkPatterns] at h
  | JVal.null => simp [checkPatterns] at h

theorem checkEntries_error_names (entries : List (String × JVal)) (route ctx : Bool) (m : String)
    (h : checkEntries entries route ctx = Except.error m) :
    ∃ k, ReqVal.startsWithDollar k = true ∧ ALLOWED_OPERATORS.contains k = false ∧
      m = "Operador no permitido: " ++ k := by
  match entries with
  | [] => simp [checkEntries] at h
  | (k, v) :: rest =>
    simp only [checkEntries] at h
    by_cases hcond : (startsWithDollar k && !(ALLOWED_OPERATORS.contains k || route || ctx)) = true
    · rw [if_pos hcond] at h
      obtain ⟨hs, hneg⟩ := Bool.and_eq_true_iff.mp hcond
      refine ⟨k, hs, ?_, (Except.error.injEq _ _).mp h.symm⟩
      simp only [Bool.not_eq_eq_eq_not, Bool.not_true, Bool.or_eq_false_iff] at hneg
      exact hneg.1.1
    · rw [if_neg hcond] at h
      cases hrec : checkPatterns v (route || ctx || k == "pipeline") with
      | ok u => rw [hrec] at h; exact checkEntries_error_names rest route ctx m h
      | error m2 =>
        rw [hrec] at h
        cases h
        exact checkPatterns_error_names v (route || ctx || k == "pipeline") m hrec

theorem checkItems_error_names (items : List JVal) (route : Bool) (m : String)
    (h : checkItems items route = Except.error m) :
    ∃ k, ReqVal.startsWithDollar k = true ∧ ALLOWED_OPERATORS.contains k = false ∧
      m = "Operador no permitido: " ++ k := by
  match items with
  | [] => simp [checkItems] at h
  | x :: rest =>
    simp only [checkItems] at h
    cases hrec : checkPatterns x route with
    | ok u => rw [hrec] at h; exact checkItems_error_names rest route m h
    | error m2 =>
      rw [hrec] at h
      cases h
      exact checkPatterns_error_names x route m hrec

end

/-- If a dict is not in pipeline context and not on a MongoDB route,
any key starting with `$` outside the allow-list makes the check
fail. -/
theorem checkEntries_rejects (entries : List (String × JVal)) (k : String)
    (hmem : k ∈ entries.map Prod.fst)
    (hs : startsWithDollar k = true) (hna : ALLOWED_OPERATORS.contains k = false) :
    ∃ m, checkEntries entries false false = Except.error m := by
  match entries with
  | [] => simp at hmem
  | (k0, v0) :: rest =>
    by_cases hbad : (startsWithDollar k0 && !(ALLOWED_OPERATORS.contains k0 || false || false)) = true
    · exact ⟨"Operador no permitido: " ++ k0, by simp only [checkEntries, if_pos hbad]⟩
    · simp only [List.map_cons, List.mem_cons] at hmem
      rcases hmem with hk0 | hmem
      · exfalso
        apply hbad
        subst hk0
        have hnmem : k ∉ ALLOWED_OPERATORS := by simpa using hna
        simp [hs, hnmem]
      · cases hrec : checkPatterns v0 (false || false || k0 == "pipeline") with
        | error m2 => exact ⟨m2, by simp only [checkEntries, if_neg hbad, hrec]⟩
        | ok u =>
          obtain ⟨m, hm⟩ := checkEntries_rejects rest k hmem hs hna
          exact ⟨m, by simp only [checkEntries, if_neg hbad, hrec, hm]⟩

end ReqVal

namespace ReqVal

/-- In pipeline context every key of the dict is tolerated and all
children are checked with the route flag forced on. -/
theorem checkEntries_ctx (entries : List (String × JVal)) (route : Bool) :
    checkEntries entries route true = Except.ok () := by
  match entries with
  | [] => rfl
  | (k, v) :: rest =>
    simp [checkEntries, checkPatterns_route v, checkEntries_ctx rest route]

end ReqVal

namespace ReqVal

mutual

/-- Is there, at any depth of the value, a dict key starting with `$`
outside the allow-list at a position where neither the route flag nor
an enclosing pipeline context relaxes the check?  The flags thread
through dicts and lists exactly as in `_check_for_malicious_patterns`,
so this is the structural characterization of what the validator
rejects. -/
def hasBadVal : JVal → Bool → Bool
  | JVal.obj entries, route => hasBadEntries entries route (pipelineCtx entries)
  | JVal.arr items, route => hasBadItems items route
  | _, _ => false

/-- Unprotected rejected key among the entries of a dict, given the
route flag and the dict's pipeline-context flag. -/
def hasBadEntries : List (String × JVal) → Bool → Bool → Bool
  | [], _, _ => false
  | (k, v) :: rest, route, ctx =>
    (startsWithDollar k && !(ALLOWED_OPERATORS.contains k || route || ctx)) ||
      hasBadVal v (route || ctx || k == "pipeline") || hasBadEntries rest route ctx

/-- Unprotected rejected key below some element of a list. -/
def hasBadItems : List JVal → Bool → Bool
  | [], _ => false
  | x :: rest, route => hasBadVal x route || hasBadItems rest route

end

mutual

theorem checkPatterns_ok_iff (v : JVal) (route : Bool) :
    checkPatterns v route = Except.ok () ↔ hasBadVal v route = false := by
  match v with
  | JVal.obj entries =>
    simp only [checkPatterns, hasBadVal]
    exact checkEntries_ok_iff entries route (pipelineCtx entries)
  | JVal.arr items =>
    simp only [checkPatterns, hasBadVal]
    exact checkItems_ok_iff items route
  | JVal.str s => simp [checkPatterns, hasBadVal]
  | JVal.num n => simp [checkPatterns, hasBadVal]
  | JVal.bool b => simp [checkPatterns, hasBadVal]
  | JVal.null => simp [checkPatterns, hasBadVal]

theorem checkEntries_ok_iff (entries : List (String × JVal)) (route ctx : Bool) :
    checkEntries entries route ctx = Except.ok () ↔
      hasBadEntries entries route ctx = false := by
  match entries with
  | [] => simp [checkEntries, hasBadEntries]
  | (k, v) :: rest =>
    simp only [checkEntries, hasBadEntries]
    by_cases hbad :
        (startsWithDollar k && !(ALLOWED_OPERATORS.contains k || route || ctx)) = true
    · rw [if_pos hbad, hbad]
      simp
    · have hbad' :
          (startsWithDollar k && !(ALLOWED_OPERATORS.contains k || route || ctx)) = false := by
        simpa using hbad
      rw [if_neg hbad, hbad']
      cases hrec : checkPatterns v (route || ctx || k == "pipeline") with
      | ok u =>
        have hv : hasBadVal v (route || ctx || k == "pipeline") = false :=
          (checkPatterns_ok_iff v (route || ctx || k == "pipeline")).mp hrec
        rw [hv]
        simpa using checkEntries_ok_iff rest route ctx
      | error m =>
        have hv : hasBadVal v (route || ctx || k == "pipeline") = true := by
          cases hb : hasBadVal v (route || ctx || k == "pipeline") with
          | true => rfl
          | false =>
            have hok := (checkPatterns_ok_iff v (route || ctx || k == "pipeline")).mpr hb
            rw [hrec] at hok
            exact absurd hok (by simp)
        rw [hv]
        simp

theorem checkItems_ok_iff (items : List JVal) (route : Bool) :
    checkItems items route = Except.ok () ↔ hasBadItems items route = false := by
  match items with
  | [] => simp [checkItems, hasBadItems]
  | x :: rest =>
    simp only [checkItems, hasBadItems]
    cases hrec : checkPatterns x route with
    | ok u =>
      have hx : hasBadVal x route = false := (checkPatterns_ok_iff x route).mp hrec
      rw [hx]
      simpa using checkItems_ok_iff rest route
    | error m =>
      have hx : hasBadVal x route = true := by
        cases hb : hasBadVal x route with
        | true => rfl
        | false =>
          have hok := (checkPatterns_ok_iff x route).mpr hb
          rw [hrec] at hok
          exact absurd hok (by simp)
      rw [hx]
      simp

end

/-- Every value holding an unprotected rejected key, at any depth, is
rejected. -/
theorem checkPatterns_rejects_bad (v : JVal) (route : Bool)
    (h : hasBadVal v route = true) : ∃ m, checkPatterns v route = Except.error m := by
  cases hc : checkPatterns v route with
  | ok u =>
    have hfalse := (checkPatterns_ok_iff v route).mp hc
    rw [h] at hfalse
    exact absurd hfalse (by simp)
  | error m => exact ⟨m, rfl⟩

end ReqVal

/-- C5: the ingress validator `_check_for_malicious_patterns`
recursively rejects `$`-prefixed keys outside `ALLOWED_OPERATORS`,
raising a client error naming the rejected operator, except in a
MongoDB-route or aggregation-pipeline context, where the check is
relaxed; structures whose dict keys are all allow-listed or
non-`$`-prefixed never trigger the error.  Formally: (a) key-safe
structures always pass; (b) any error message names a rejected
`$`-operator outside the allow-list; (c) on a MongoDB route everything
passes; (d) a dict in pipeline context passes with all its children;
(e) off-route and outside pipeline context, a dict holding a
`$`-prefixed key outside the allow-list is rejected; (f) the check
succeeds exactly when no depth of the structure holds a `$`-prefixed
key outside the allow-list at a position unrelaxed by the route flag
or an enclosing pipeline context; (g) hence any structure holding such
an unprotected key at any depth is rejected. -/
theorem C5_ingress_validator_allowlist :
    (∀ (v : JVal) (route : Bool), ReqVal.allKeysSafeVal v = true →
        ReqVal.checkPatterns v route = Except.ok ()) ∧
    (∀ (v : JVal) (route : Bool) (m : String),
        ReqVal.checkPatterns v route = Except.error m →
        ∃ k, ReqVal.startsWithDollar k = true ∧ ReqVal.ALLOWED_OPERATORS.contains k = false ∧
          m = "Operador no permitido: " ++ k) ∧
    (∀ v : JVal, ReqVal.checkPatterns v true = Except.ok ()) ∧
    (∀ entries : List (String × JVal), ReqVal.pipelineCtx entries = true →
        ReqVal.checkPatterns (JVal.obj entries) false = Except.ok ()) ∧
    (∀ (entries : List (String × JVal)) (k : String),
        k ∈ entries.map Prod.fst → ReqVal.startsWithDollar k = true →
        ReqVal.ALLOWED_OPERATORS.contains k = false →
        ReqVal.pipelineCtx entries = false →
        ∃ m, ReqVal.checkPatterns (JVal.obj entries) false = Except.error m) ∧
    (∀ (v : JVal) (route : Bool),
        ReqVal.checkPatterns v route = Except.ok () ↔ ReqVal.hasBadVal v route = false) ∧
    (∀ (v : JVal) (route : Bool), ReqVal.hasBadVal v route = true →
        ∃ m, ReqVal.checkPatterns v route = Except.error m) := by
  refine ⟨ReqVal.checkPatterns_safe, ReqVal.checkPatterns_error_names,
    ReqVal.checkPatterns_route, ?_, ?_, ReqVal.checkPatterns_ok_iff,
    ReqVal.checkPatterns_rejects_bad⟩
  · intro entries hctx
    simp only [ReqVal.checkPatterns, hctx]
    exact ReqVal.checkEntries_ctx entries false
  · intro entries k hmem hs hna hctx
    simp only [ReqVal.checkPatterns, hctx]
    exact ReqVal.checkEntries_rejects entries k hmem hs hna

/-- C5 witness: the theorem applied at concrete inputs — a safe filter
passes, a `$where` filter is rejected off-route, an arbitrary
`$function` key passes on the MongoDB route, and a nested non-allow-
listed `$bad` key two dicts deep is rejected off-route. -/
theorem C5_ingress_validator_allowlist_witness :
    ReqVal.checkPatterns (JVal.obj [("age", JVal.obj [("$gt", JVal.num 18)])]) false =
        Except.ok () ∧
    (∃ m, ReqVal.checkPatterns (JVal.obj [("$where", JVal.str "this.a==1")]) false =
        Except.error m) ∧
    ReqVal.checkPatterns (JVal.obj [("$function", JVal.str "x")]) true = Except.ok () ∧
    (∃ m, ReqVal.checkPatterns (JVal.obj [("a", JVal.obj [("$bad", JVal.num 1)])]) false =
        Except.error m) :=
  ⟨C5_ingress_validator_allowlist.1 _ false (by decide),
   C5_ingress_validator_allowlist.2.2.2.2.1 [("$where", JVal.str "this.a==1")] "$where"
     (by simp) (by decide) (by decide) (by decide),
   C5_ingress_validator_allowlist.2.2.1 _,
   C5_ingress_validator_allowlist.2.2.2.2.2.2
     (JVal.obj [("a", JVal.obj [("$bad", JVal.num 1)])]) false (by decide)⟩

namespace CoreUtils

/-- Python substring test `needle in hay`, on character lists. -/
def infixOf (needle : List Char) : List Char → Bool
  | [] => needle.isEmpty
  | c :: rest => needle.isPrefixOf (c :: rest) || infixOf needle rest

/-- Python `needle in hay` on strings. -/
def strContains (hay needle : String) : Bool :=
  infixOf needle.data hay.data

/-- Python `s.lower()`: character-wise lower-casing. -/
def toLowerS (s : String) : String := String.mk (s.data.map Char.toLower)

/-- Python `s.endswith("s")`: test on the last character. -/
def endsWithS (s : String) : Bool :=
  match s.data.getLast? with
  | some c => c == 's'
  | none => false

/-- Python `s[:-1]`: drop the last character. -/
def dropLastChar (s : String) : String := String.mk s.data.dropLast

/-- The theme keyword table of `Utils.determine_best_collection`
(app/core/utils.py lines 48-56). -/
def query_themes : List (String × List String) :=
  [("usuarios", ["usuario", "user", "persona", "cliente", "correo", "email", "nombre"]),
   ("productos", ["producto", "item", "artículo", "articulo", "mercancía", "mercancia"]),
   ("ventas", ["venta", "compra", "transacción", "transaccion", "pedido", "orden"]),
   ("servicios", ["servicio", "service", "prestación", "prestacion"]),
   ("documentos", ["documento", "archivo", "fichero", "file", "record"]),
   ("mensajes", ["mensaje", "message", "correo", "notificación", "notificacion",
                 "comunicación", "comunicacion"]),
   ("registros", ["registro", "record", "log", "entrada", "history", "actividad"])]

/-- Stage 1 of the selector: first collection whose lower-cased name,
or naive singular (name minus a trailing `s`), occurs in the
lower-cased question (app/core/utils.py lines 36-44). -/
def directMention (queryLower : String) : List String → Option String
  | [] => none
  | c :: rest =>
    let cn := toLowerS c
    let cs := if endsWithS cn then dropLastChar cn else cn
    if strContains queryLower cn || strContains queryLower cs then some c
    else directMention queryLower rest

/-- Theme relevance scores: keyword hit counts per theme, keeping only
positive scores (app/core/utils.py lines 59-63). -/
def themeScores (queryLower : String) : List (String × Nat) :=
  (query_themes.map
      (fun th => (th.1, (th.2.filter (fun kw => strContains queryLower kw)).length))).filter
    (fun p => 0 < p.2)

/-- Stable descending insertion by the numeric second component:
an element is placed after all existing elements of score at least its
own, mirroring Python's stable `sorted(..., reverse=True)`. -/
def insertScoreDesc (x : String × Nat) : List (String × Nat) → List (String × Nat)
  | [] => [x]
  | y :: ys => if y.2 < x.2 then x :: y :: ys else y :: insertScoreDesc x ys

/-- Stable sort, descending by score. -/
def sortScoresDesc (l : List (String × Nat)) : List (String × Nat) :=
  l.foldl (fun acc x => insertScoreDesc x acc) []

/-- Stage 2 inner loop: first available collection whose lower-cased
name contains the theme or one of the theme's keywords
(app/core/utils.py lines 71-79). -/
def collectionForTheme (theme : String) : List String → Option String
  | [] => none
  | c :: rest =>
    let cl := toLowerS c
    if strContains cl theme ||
        ((query_themes.lookup theme).getD []).any (fun kw => strContains cl kw) then
      some c
    else collectionForTheme theme rest

/-- Stage 2 outer loop over themes sorted by relevance. -/
def themeStage (sortedThemes : List (String × Nat)) (available : List String) : Option String :=
  match sortedThemes with
  | [] => none
  | (theme, _) :: rest =>
    match collectionForTheme theme available with
    | some c => some c
    | none => themeStage rest available

/-- Stage 3 meta-database terms (app/core/utils.py line 82). -/
def metaTerms : List String :=
  ["base de datos", "base datos", "bbdd", "bd", "database", "db", "schema", "estructura"]

/-- Stage 3 priority list of common collection names
(app/core/utils.py line 84). -/
def common_collections : List String :=
  ["users", "customers", "clients", "accounts", "products", "orders", "items"]

/-- Stage 3 inner scan: first common name contained in some available
collection, in priority order. -/
def commonNameStage (available : List String) : List String → Option String
  | [] => none
  | common :: rest =>
    match available.find? (fun c => strContains (toLowerS c) common) with
    | some c => some c
    | none => commonNameStage available rest

/-- Stable descending insertion for document counts (stage 4). -/
def insertCountDesc (x : String × Int) : List (String × Int) → List (String × Int)
  | [] => [x]
  | y :: ys => if y.2 < x.2 then x :: y :: ys else y :: insertCountDesc x ys

/-- Stable sort of (collection, count) pairs, descending by count,
mirroring Python's `sorted(counts, key=..., reverse=True)`. -/
def sortCountsDesc (l : List (String × Int)) : List (String × Int) :=
  l.foldl (fun acc x => insertCountDesc x acc) []

/-- Stage 4: with a live connection, pick the collection with the most
documents; a raised count query falls through to stage 5
(app/core/utils.py lines 92-106).  The connection oracle either
raises or yields an estimated count per collection. -/
def countStage (available : List String) :
    Option (Except Unit (String → Int)) → Option String
  | none => none
  | some (Except.error _) => none
  | some (Except.ok counts) =>
    let pairs := available.map (fun c => (c, counts c))
    (sortCountsDesc pairs).head?.map Prod.fst

/-- Stage 5 generic central-entity markers (app/core/utils.py line 112). -/
def centralMarkers : List String :=
  ["user", "customer", "client", "account", "main", "core"]

/-- Stage 5: first collection whose lower-cased name contains a
central-entity marker. -/
def centralNameStage (available : List String) : Option String :=
  available.find? (fun c => centralMarkers.any (fun n => strContains (toLowerS c) n))

/-- `Utils.determine_best_collection` (app/core/utils.py lines 13-118):
cascade of heuristics, first match wins, final fallback the first
collection. -/
def determine_best_collection (query : String) (available : List String)
    (dbConn : Option (Except Unit (String → Int))) : Option String :=
  match available with
  | [] => none
  | [c] => some c
  | c0 :: c1 :: rest =>
    let avail := c0 :: c1 :: rest
    let queryLower := toLowerS query
    (directMention queryLower avail).orElse fun _ =>
    (themeStage (sortScoresDesc (themeScores queryLower)) avail).orElse fun _ =>
    ((if metaTerms.any (fun t => strContains queryLower t) then
        commonNameStage avail common_collections
      else none)).orElse fun _ =>
    (countStage avail dbConn).orElse fun _ =>
    (centralNameStage avail).orElse fun _ =>
    some c0

end CoreUtils

/-- C8: on the question "how many users do we have" with ordered
collections users, orders and no live connection, the selector returns
"users", and it does so through the direct-mention stage: the question
contains the collection name "users" (and its naive singular "user"),
and "users" is the first match in iteration order. -/
theorem C8_selector_users_direct_mention :
    CoreUtils.determine_best_collection "how many users do we have" ["users", "orders"] none =
        some "users" ∧
    CoreUtils.directMention "how many users do we have" ["users", "orders"] = some "users" ∧
    CoreUtils.strContains "how many users do we have" "users" = true := by
  refine ⟨by decide, by decide, by decide⟩

namespace CoreUtils

theorem insertCountDesc_subset (x y : String × Int) (l : List (String × Int))
    (h : y ∈ insertCountDesc x l) : y = x ∨ y ∈ l := by
  match l with
  | [] => simpa [insertCountDesc] using h
  | z :: zs =>
    simp only [insertCountDesc] at h
    by_cases hc : z.2 < x.2
    · rw [if_pos hc] at h
      simpa using h
    · rw [if_neg hc] at h
      rcases List.mem_cons.mp h with hz | htail
      · exact Or.inr (by simp [hz])
      · rcases insertCountDesc_subset x y zs htail with h1 | h2
        · exact Or.inl h1
        · exact Or.inr (List.mem_cons_of_mem z h2)

theorem sortCountsDesc_foldl_subset (l acc : List (String × Int)) (y : String × Int)
    (h : y ∈ l.foldl (fun a x => insertCountDesc x a) acc) : y ∈ acc ∨ y ∈ l := by
  match l with
  | [] => exact Or.inl h
  | z :: zs =>
    simp only [List.foldl_cons] at h
    rcases sortCountsDesc_foldl_subset zs (insertCountDesc z acc) y h with hacc | hl
    · rcases insertCountDesc_subset z y acc hacc with h1 | h2
      · exact Or.inr (by simp [h1])
      · exact Or.inl h2
    · exact Or.inr (List.mem_cons_of_mem z hl)

/-- Whatever the stage, the selector only ever returns one of the
available collections. -/
theorem directMention_mem (q : String) (l : List String) (c : String)
    (h : directMention q l = some c) : c ∈ l := by
  match l with
  | [] => simp [directMention] at h
  | c0 :: rest =>
    simp only [directMention] at h
    by_cases hc : (strContains q (toLowerS c0) ||
        strContains q (if endsWithS (toLowerS c0) then dropLastChar (toLowerS c0)
          else toLowerS c0)) = true
    · rw [if_pos hc] at h
      cases h
      exact List.mem_cons_self _ _
    · rw [if_neg hc] at h
      exact List.mem_cons_of_mem c0 (directMention_mem q rest c h)

theorem collectionForTheme_mem (th : String) (l : List String) (c : String)
    (h : collectionForTheme th l = some c) : c ∈ l := by
  match l with
  | [] => simp [collectionForTheme] at h
  | c0 :: rest =>
    simp only [collectionForTheme] at h
    by_cases hc : (strContains (toLowerS c0) th ||
        ((query_themes.lookup th).getD []).any (fun kw => strContains (toLowerS c0) kw)) = true
    · rw [if_pos hc] at h
      cases h
      exact List.mem_cons_self _ _
    · rw [if_neg hc] at h
      exact List.mem_cons_of_mem c0 (collectionForTheme_mem th rest c h)

theorem themeStage_mem (ts : List (String × Nat)) (l : List String) (c : String)
    (h : themeStage ts l = some c) : c ∈ l := by
  match ts with
  | [] => simp [themeStage] at h
  | (th, s) :: rest =>
    simp only [themeStage] at h
    cases hfirst : collectionForTheme th l with
    | some c2 =>
      rw [hfirst] at h
      cases h
      exact collectionForTheme_mem th l c hfirst
    | none =>
      rw [hfirst] at h
      exact themeStage_mem rest l c h

theorem commonNameStage_mem (avail : List String) (commons : List String) (c : String)
    (h : commonNameStage avail commons = some c) : c ∈ avail := by
  match commons with
  | [] => simp [commonNameStage] at h
  | com :: rest =>
    simp only [commonNameStage] at h
    cases hfind : avail.find? (fun x => strContains (toLowerS x) com) with
    | some c2 =>
      rw [hfind] at h
      cases h
      exact List.mem_of_find?_eq_some hfind
    | none =>
      rw [hfind] at h
      exact commonNameStage_mem avail rest c h

theorem countStage_mem (avail : List String) (conn : Option (Except Unit (String → Int)))
    (c : String) (h : countStage avail conn = some c) : c ∈ avail := by
  match conn with
  | none => exact Option.noConfusion h
  | some (Except.error u) => exact Option.noConfusion h
  | some (Except.ok counts) =>
    simp only [countStage] at h
    cases hh : (sortCountsDesc (avail.map (fun x => (x, counts x)))).head? with
    | none => rw [hh] at h; simp at h
    | some p =>
      rw [hh] at h
      cases h
      have hp : p ∈ sortCountsDesc (avail.map (fun x => (x, counts x))) :=
        List.mem_of_mem_head? hh
      have hp2 : p ∈ avail.map (fun x => (x, counts x)) := by
        rcases sortCountsDesc_foldl_subset _ [] p hp with hacc | hl
        · simp at hacc
        · exact hl
      obtain ⟨x, hx, hxp⟩ := List.mem_map.mp hp2
      rw [← hxp]
      exact hx

theorem determine_best_collection_mem (q : String) (l : List String)
    (conn : Option (Except Unit (String → Int))) (c : String)
    (h : determine_best_collection q l conn = some c) : c ∈ l := by
  match l with
  | [] => simp [determine_best_collection] at h
  | [c0] =>
    simp only [determine_best_collection] at h
    cases h
    exact List.mem_singleton_self _
  | c0 :: c1 :: rest =>
    simp only [determine_best_collection] at h
    rcases (Option.orElse_eq_some' _ _ _).mp h with h1 | ⟨hn1, h2⟩
    · exact directMention_mem _ _ _ h1
    · rcases (Option.orElse_eq_some' _ _ _).mp h2 with h3 | ⟨hn3, h4⟩
      · exact themeStage_mem _ _ _ h3
      · rcases (Option.orElse_eq_some' _ _ _).mp h4 with h5 | ⟨hn5, h6⟩
        · by_cases hmeta : metaTerms.any (fun t => strContains (toLowerS q) t) = true
          · rw [if_pos hmeta] at h5
            exact commonNameStage_mem _ _ _ h5
          · rw [if_neg hmeta] at h5
            simp at h5
        · rcases (Option.orElse_eq_some' _ _ _).mp h6 with h7 | ⟨hn7, h8⟩
          · exact countStage_mem _ _ _ h7
          · rcases (Option.orElse_eq_some' _ _ _).mp h8 with h9 | ⟨hn9, h10⟩
            · exact List.mem_of_find?_eq_some h9
            · cases h10
              exact List.mem_cons_self _ _

end CoreUtils

namespace CoreModel

/-- The `MongoDBQuery` pydantic model (app/models/database_query.py
lines 21-57), after validation.  `query` and `filter` are dict fields
with an empty-dict default; the remaining fields are optional. -/
structure MongoDBQuery where
  collection : String
  operation : String
  query : List (String × JVal)
  filter : List (String × JVal)
  projection : Option (List (String × JVal))
  sort : Option (List (String × Int))
  limit : Option Int
  skip : Option Int
  pipeline : Option (List (List (String × JVal)))
  document : Option (List (String × JVal))
  update : Option (List (String × JVal))
deriving Repr

/-- Constructor-argument presence for the dict-valued fields: `none` is
an absent keyword argument, `some none` an argument given as Python
`None`, `some (some v)` an argument given as a dict. -/
abbrev Arg (α : Type) : Type := Option (Option α)

/-- The filter/query synchronization of `MongoDBQuery.__init__`
(app/models/database_query.py lines 44-51): a present non-None
`filter` is copied onto an absent or None `query`, else a present
non-None `query` is copied onto an absent or None `filter`.  Returns
the (filter, query) data after normalization. -/
def syncFilterQuery (f q : Arg (List (String × JVal))) :
    Arg (List (String × JVal)) × Arg (List (String × JVal)) :=
  match f with
  | some (some fv) =>
    (some (some fv),
      match q with
      | some (some qv) => some (some qv)
      | _ => some (some fv))
  | _ =>
    match q with
    | some (some qv) => (some (some qv), some (some qv))
    | _ => (f, q)

/-- Validation of a dict field with `default_factory=dict`: an absent
argument yields the empty dict; an explicit Python `None` fails
pydantic validation. -/
def dictFieldValue : Arg (List (String × JVal)) → Option (List (String × JVal))
  | none => some []
  | some none => none
  | some (some v) => some v

/-- The `operation` normalization (app/models/database_query.py lines
54-55): a present string is lower-cased, an absent argument takes the
field default `find`, and a present `None` makes `.lower()` raise. -/
def operationValue : Arg String → Option String
  | none => some "find"
  | some none => none
  | some (some s) => some (CoreUtils.toLowerS s)

/-- `MongoDBQuery.__init__` (app/models/database_query.py lines 42-57)
as a partial constructor: `none` models a raised validation error. -/
def mongoInit (c : Option String) (op : Arg String)
    (q f : Arg (List (String × JVal)))
    (proj : Option (List (String × JVal))) (sortA : Option (List (String × Int)))
    (limitA skipA : Option Int) (pipelineA : Option (List (List (String × JVal))))
    (documentA updateA : Option (List (String × JVal))) : Option MongoDBQuery := do
  let collection ← c
  let operation ← operationValue op
  let fq := syncFilterQuery f q
  let filterV ← dictFieldValue fq.1
  let queryV ← dictFieldValue fq.2
  pure
    { collection := collection, operation := operation, query := queryV, filter := filterV,
      projection := proj, sort := sortA, limit := limitA, skip := skipA,
      pipeline := pipelineA, document := documentA, update := updateA }

end CoreModel

namespace CoreQuerys

open CoreModel

/-- `AIQuery.generate_sql_query` (app/core/querys.py lines 34-126).
The prompt construction and the model call are absorbed into the
`modelResp` oracle: `Except.ok text` is the model's message content,
`Except.error` any exception raised by the call.  `cleanSql` abstracts
the pure `AIQuery.clean_sql_query` helper applied on success.  On any
exception the safe fallback selects the first table of the schema, or
`users` when the schema lists none. -/
def generate_sql_query (tables : List String) (cleanSql : String → String)
    (modelResp : Except Unit String) : String :=
  match modelResp with
  | Except.ok content => cleanSql (content.trim)
  | Except.error _ => "SELECT * FROM " ++ tables.headD "users" ++ " LIMIT 10"

/-- The parsed model output for a MongoDB query generation run that
reached `json.loads` successfully with well-typed fields
(app/core/querys.py lines 650-667): each field records the result of
`query_data.get(...)`, with `none` for an absent key and `some none`
for an explicit JSON null.  Runs whose output fails to parse or
carries mistyped fields raise and are covered by the `Except.error`
oracle case of `generate_mongodb_query`. -/
structure GenData where
  collection : Option String
  operation : CoreModel.Arg String
  query : CoreModel.Arg (List (String × JVal))
  pipeline : CoreModel.Arg (List (List (String × JVal)))
  projection : Option (List (String × JVal))
  sort : Option (List (String × Int))
  limit : CoreModel.Arg Int
  skip : CoreModel.Arg Int

/-- The fallback query of `AIQuery.generate_mongodb_query`
(app/core/querys.py lines 691-697): MongoDBQuery with the selected (or
first available, or `users`) collection, operation `find`, empty
query, limit 10 and skip 0. -/
def mongoFallback (c : String) : MongoDBQuery :=
  (mongoInit (some c) (some (some "find")) (some (some [])) none
      none none (some 10) (some 0) none none none).getD
    { collection := c, operation := "find", query := [], filter := [],
      projection := none, sort := none, limit := some 10, skip := some 0,
      pipeline := none, document := none, update := none }

/-- `AIQuery.generate_mongodb_query` (app/core/querys.py lines
532-697).  The collection is selected from the explicit argument or
`Utils.determine_best_collection`; on model success the parsed data is
forced onto the selected collection and passed to `MongoDBQuery`; any
exception (model call, JSON parsing — the `Except.error` case — or
`MongoDBQuery` validation) lands in the safe fallback. -/
def generate_mongodb_query (query : String) (tables : List String)
    (collection_name : Option String) (dbConn : Option (Except Unit (String → Int)))
    (model : Except Unit GenData) : MongoDBQuery :=
  let selected : Option String :=
    match collection_name with
    | some c => some c
    | none => CoreUtils.determine_best_collection query tables dbConn
  let fallbackColl : String := selected.getD (tables.headD "users")
  match model with
  | Except.error _ => mongoFallback fallbackColl
  | Except.ok gd =>
    let collectionArg : Option String :=
      if gd.collection = selected then gd.collection else selected
    let operationArg : Option String :=
      match gd.operation with
      | none => some "find"
      | some v => v
    let queryArg : Option (List (String × JVal)) :=
      match gd.query with
      | none => some []
      | some v => v
    let pipelineArg : Option (List (List (String × JVal))) :=
      match gd.pipeline with
      | none => some []
      | some v => v
    let limitArg : Option Int :=
      match gd.limit with
      | none => some 10
      | some v => v
    let skipArg : Option Int :=
      match gd.skip with
      | none => some 0
      | some v => v
    match mongoInit collectionArg (some operationArg) (some queryArg) none
        gd.projection gd.sort limitArg skipArg pipelineArg none none with
    | some mq => mq
    | none => mongoFallback fallbackColl

end CoreQuerys

namespace CoreModel

/-- When at most one of filter/query is supplied with a non-None
value, the synchronized field values agree whenever both validate. -/
theorem sync_agree (f q : Arg (List (String × JVal)))
    (h : f = none ∨ f = some none ∨ q = none ∨ q = some none)
    (fv qv : List (String × JVal))
    (hf : dictFieldValue (syncFilterQuery f q).1 = some fv)
    (hq : dictFieldValue (syncFilterQuery f q).2 = some qv) : fv = qv := by
  match f, q with
  | some (some fval), none =>
    simp [syncFilterQuery, dictFieldValue] at hf hq
    subst fv
    subst qv
    rfl
  | some (some fval), some none =>
    simp [syncFilterQuery, dictFieldValue] at hf hq
    subst fv
    subst qv
    rfl
  | some (some fval), some (some qval) =>
    rcases h with h | h | h | h <;> simp at h
  | none, some (some qval) =>
    simp [syncFilterQuery, dictFieldValue] at hf hq
    subst fv
    subst qv
    rfl
  | some none, some (some qval) =>
    simp [syncFilterQuery, dictFieldValue] at hf hq
    subst fv
    subst qv
    rfl
  | none, none =>
    simp [syncFilterQuery, dictFieldValue] at hf hq
    subst fv
    subst qv
    rfl
  | none, some none =>
    simp [syncFilterQuery, dictFieldValue] at hf hq
  | some none, none =>
    simp [syncFilterQuery, dictFieldValue] at hf
  | some none, some none =>
    simp [syncFilterQuery, dictFieldValue] at hf

/-- Successful construction with at most one supplied non-None
filter/query argument yields equal `filter` and `query` fields. -/
theorem mongoInit_filter_eq_query (c : Option String) (op : Arg String)
    (q f : Arg (List (String × JVal)))
    (proj : Option (List (String × JVal))) (sortA : Option (List (String × Int)))
    (limitA skipA : Option Int) (pipelineA : Option (List (List (String × JVal))))
    (documentA updateA : Option (List (String × JVal))) (mq : MongoDBQuery)
    (h : f = none ∨ f = some none ∨ q = none ∨ q = some none)
    (hmq : mongoInit c op q f proj sortA limitA skipA pipelineA documentA updateA = some mq) :
    mq.filter = mq.query := by
  simp only [mongoInit, Option.bind_eq_bind, Option.bind_eq_some, Option.pure_def,
    Option.some.injEq] at hmq
  obtain ⟨collection, hc, operation, hop, filterV, hf, queryV, hq, hrec⟩ := hmq
  rw [← hrec]
  exact sync_agree f q h filterV queryV hf hq

/-- Successful construction lower-cases a supplied operation string. -/
theorem mongoInit_operation_lower (c : Option String) (s : String)
    (q f : Arg (List (String × JVal)))
    (proj : Option (List (String × JVal))) (sortA : Option (List (String × Int)))
    (limitA skipA : Option Int) (pipelineA : Option (List (List (String × JVal))))
    (documentA updateA : Option (List (String × JVal))) (mq : MongoDBQuery)
    (hmq : mongoInit c (some (some s)) q f proj sortA limitA skipA pipelineA
        documentA updateA = some mq) :
    mq.operation = CoreUtils.toLowerS s := by
  simp only [mongoInit, Option.bind_eq_bind, Option.bind_eq_some, Option.pure_def,
    Option.some.injEq, operationValue] at hmq
  obtain ⟨collection, hc, operation, hop, filterV, hf, queryV, hq, hrec⟩ := hmq
  rw [← hrec]
  exact hop.symm

/-- An absent operation argument takes the field default `find`. -/
theorem mongoInit_operation_default (c : Option String)
    (q f : Arg (List (String × JVal)))
    (proj : Option (List (String × JVal))) (sortA : Option (List (String × Int)))
    (limitA skipA : Option Int) (pipelineA : Option (List (List (String × JVal))))
    (documentA updateA : Option (List (String × JVal))) (mq : MongoDBQuery)
    (hmq : mongoInit c none q f proj sortA limitA skipA pipelineA
        documentA updateA = some mq) :
    mq.operation = "find" := by
  simp only [mongoInit, Option.bind_eq_bind, Option.bind_eq_some, Option.pure_def,
    Option.some.injEq, operationValue] at hmq
  obtain ⟨collection, hc, operation, hop, filterV, hf, queryV, hq, hrec⟩ := hmq
  rw [← hrec]
  exact hop.symm

end CoreModel

namespace CoreQuerys

/-- The generator fallback, evaluated. -/
theorem mongoFallback_eq (c : String) :
    mongoFallback c =
      { collection := c, operation := "find", query := [], filter := [],
        projection := none, sort := none, limit := some 10, skip := some 0,
        pipeline := none, document := none, update := none } := by
  have h : CoreUtils.toLowerS "find" = "find" := by decide
  simp [mongoFallback, CoreModel.mongoInit, CoreModel.operationValue,
    CoreModel.syncFilterQuery, CoreModel.dictFieldValue, h]

/-- Every query the generator returns has `filter` and `query` in
sync: the success path never passes a `filter` argument, so the
`MongoDBQuery` normalization copies `query` onto `filter`, and the
fallback passes an empty `query` only. -/
theorem generate_mongodb_query_filter_eq_query (query : String) (tables : List String)
    (collection_name : Option String) (dbConn : Option (Except Unit (String → Int)))
    (model : Except Unit GenData) :
    (generate_mongodb_query query tables collection_name dbConn model).filter =
      (generate_mongodb_query query tables collection_name dbConn model).query := by
  cases model with
  | error u => simp [generate_mongodb_query, mongoFallback_eq]
  | ok gd =>
    simp only [generate_mongodb_query]
    cases hinit : CoreModel.mongoInit
        (if gd.collection = (match collection_name with
          | some c => some c
          | none => CoreUtils.determine_best_collection query tables dbConn) then gd.collection
         else (match collection_name with
          | some c => some c
          | none => CoreUtils.determine_best_collection query tables dbConn))
        (some (match gd.operation with | none => some "find" | some v => v))
        (some (match gd.query with | none => some [] | some v => v)) none
        gd.projection gd.sort
        (match gd.limit with | none => some 10 | some v => v)
        (match gd.skip with | none => some 0 | some v => v)
        (match gd.pipeline with | none => some [] | some v => v) none none with
    | some mq =>
      exact CoreModel.mongoInit_filter_eq_query _ _ _ _ _ _ _ _ _ _ _ mq
        (Or.inl rfl) hinit
    | none =>
      simp [mongoFallback_eq]

end CoreQuerys

/-- C3 counterexample: constructing `MongoDBQuery` with both `filter`
and `query` supplied as distinct non-None dicts keeps them distinct —
the `__init__` mirroring only fills an absent/None side — refuting
"for every constructed MongoDBQuery, filter and query hold the same
value". -/
theorem C3_filter_query_counterexample :
    CoreModel.mongoInit (some "c") none (some (some [("b", JVal.num 2)]))
        (some (some [("a", JVal.num 1)])) none none none none none none none =
      some { collection := "c", operation := "find", query := [("b", JVal.num 2)],
             filter := [("a", JVal.num 1)], projection := none, sort := none,
             limit := none, skip := none, pipeline := none, document := none,
             update := none } ∧
    ([("a", JVal.num 1)] : List (String × JVal)) ≠ [("b", JVal.num 2)] := by
  constructor
  · rfl
  · intro h
    have : "a" = "b" := congrArg (fun l => (l.headD ("z", JVal.null)).1) h
    exact absurd this (by decide)

/-- C3 (amended): `filter` and `query` agree after construction
whenever at most one of them is supplied with a non-None value — in
particular for every `MongoDBQuery` the Query Generator produces,
on both its success and fallback paths — and the `operation` field is
lower-cased when supplied and defaults to `find` when absent; only a
construction given two distinct non-None dicts keeps them apart. -/
theorem C3_filter_query_mirroring_amended :
    (∀ (c : Option String) (op : CoreModel.Arg String)
        (q f : CoreModel.Arg (List (String × JVal)))
        (proj : Option (List (String × JVal))) (sortA : Option (List (String × Int)))
        (limitA skipA : Option Int) (pipelineA : Option (List (List (String × JVal))))
        (documentA updateA : Option (List (String × JVal))) (mq : CoreModel.MongoDBQuery),
        f = none ∨ f = some none ∨ q = none ∨ q = some none →
        CoreModel.mongoInit c op q f proj sortA limitA skipA pipelineA documentA updateA =
          some mq →
        mq.filter = mq.query) ∧
    (∀ (query : String) (tables : List String) (collection_name : Option String)
        (dbConn : Option (Except Unit (String → Int)))
        (model : Except Unit CoreQuerys.GenData),
        (CoreQuerys.generate_mongodb_query query tables collection_name dbConn model).filter =
          (CoreQuerys.generate_mongodb_query query tables collection_name dbConn model).query) ∧
    (∀ (c : Option String) (s : String) (q f : CoreModel.Arg (List (String × JVal)))
        (proj : Option (List (String × JVal))) (sortA : Option (List (String × Int)))
        (limitA skipA : Option Int) (pipelineA : Option (List (List (String × JVal))))
        (documentA updateA : Option (List (String × JVal))) (mq : CoreModel.MongoDBQuery),
        CoreModel.mongoInit c (some (some s)) q f proj sortA limitA skipA pipelineA
            documentA updateA = some mq →
        mq.operation = CoreUtils.toLowerS s) := by
  refine ⟨?_, CoreQuerys.generate_mongodb_query_filter_eq_query, ?_⟩
  · intro c op q f proj sortA limitA skipA pipelineA documentA updateA mq h hmq
    exact CoreModel.mongoInit_filter_eq_query c op q f proj sortA limitA skipA
      pipelineA documentA updateA mq h hmq
  · intro c s q f proj sortA limitA skipA pipelineA documentA updateA mq hmq
    exact CoreModel.mongoInit_operation_lower c s q f proj sortA limitA skipA
      pipelineA documentA updateA mq hmq

/-- C3 witness: the amended theorem applied at concrete inputs — a
construction supplying only `query` mirrors it onto `filter`, a
generator fallback run has equal fields, and operation `FIND` is
lower-cased to `find`. -/
theorem C3_filter_query_mirroring_amended_witness :
    (∀ mq : CoreModel.MongoDBQuery,
        CoreModel.mongoInit (some "users") none (some (some [("age", JVal.num 30)])) none
            none none none none none none none = some mq →
        mq.filter = mq.query) ∧
    (CoreQuerys.generate_mongodb_query "list users" ["users"] none none
        (Except.error ())).filter =
      (CoreQuerys.generate_mongodb_query "list users" ["users"] none none
        (Except.error ())).query ∧
    (∀ mq : CoreModel.MongoDBQuery,
        CoreModel.mongoInit (some "users") (some (some "FIND")) (some (some [])) none
            none none none none none none none = some mq →
        mq.operation = CoreUtils.toLowerS "FIND") :=
  ⟨fun mq hmq => C3_filter_query_mirroring_amended.1 _ _ _ _ _ _ _ _ _ _ _ mq
      (Or.inl rfl) hmq,
   C3_filter_query_mirroring_amended.2.1 "list users" ["users"] none none (Except.error ()),
   fun mq hmq => C3_filter_query_mirroring_amended.2.2 _ "FIND" _ _ _ _ _ _ _ _ _ mq hmq⟩

namespace CoreUtils

theorem orElse_isSome (a : Option String) (b : Unit → Option String)
    (h : (b ()).isSome = true) : (a.orElse b).isSome = true := by
  cases a with
  | none => simpa [Option.orElse] using h
  | some v => simp [Option.orElse]

/-- On a nonempty list of collections the selector always returns
one (the cascade ends in the first-collection fallback). -/
theorem determine_best_collection_isSome (q t : String) (ts : List String)
    (conn : Option (Except Unit (String → Int))) :
    (determine_best_collection q (t :: ts) conn).isSome = true := by
  match ts with
  | [] => rfl
  | t1 :: rest =>
    simp only [determine_best_collection]
    apply orElse_isSome
    apply orElse_isSome
    apply orElse_isSome
    apply orElse_isSome
    apply orElse_isSome
    rfl

end CoreUtils

/-- C2: when the external model call raises, query generation never
propagates the exception and emits the documented safe fallback:
`generate_sql_query` returns `SELECT * FROM` the first schema table
(`users` when the schema lists none) `LIMIT 10` — in particular
`SELECT * FROM customers LIMIT 10` for a schema whose only table is
`customers` — and `generate_mongodb_query` returns a `find` query with
empty filter and query, limit 10 and skip 0, on the explicitly
requested collection when one was given, else on a collection chosen
from the available ones. -/
theorem C2_generator_safe_fallbacks :
    (∀ (tables : List String) (cleanSql : String → String),
        CoreQuerys.generate_sql_query tables cleanSql (Except.error ()) =
          "SELECT * FROM " ++ tables.headD "users" ++ " LIMIT 10") ∧
    (∀ cleanSql : String → String,
        CoreQuerys.generate_sql_query ["customers"] cleanSql (Except.error ()) =
          "SELECT * FROM customers LIMIT 10") ∧
    (∀ (q : String) (tables : List String) (name : Option String)
        (conn : Option (Except Unit (String → Int))),
        CoreQuerys.generate_mongodb_query q tables name conn (Except.error ()) =
          CoreQuerys.mongoFallback
            ((match name with
              | some c => some c
              | none => CoreUtils.determine_best_collection q tables conn).getD
              (tables.headD "users")) ∧
        (CoreQuerys.generate_mongodb_query q tables name conn (Except.error ())).operation =
          "find" ∧
        (CoreQuerys.generate_mongodb_query q tables name conn (Except.error ())).filter = [] ∧
        (CoreQuerys.generate_mongodb_query q tables name conn (Except.error ())).query = [] ∧
        (CoreQuerys.generate_mongodb_query q tables name conn (Except.error ())).limit =
          some 10) ∧
    (∀ (q c : String) (tables : List String) (conn : Option (Except Unit (String → Int))),
        (CoreQuerys.generate_mongodb_query q tables (some c) conn
            (Except.error ())).collection = c) ∧
    (∀ (q t : String) (ts : List String) (conn : Option (Except Unit (String → Int))),
        (CoreQuerys.generate_mongodb_query q (t :: ts) none conn
            (Except.error ())).collection ∈ t :: ts) := by
  refine ⟨fun tables cleanSql => rfl, fun cleanSql => rfl, ?_, ?_, ?_⟩
  · intro q tables name conn
    refine ⟨rfl, ?_, ?_, ?_, ?_⟩ <;>
      simp [CoreQuerys.generate_mongodb_query, CoreQuerys.mongoFallback_eq]
  · intro q c tables conn
    simp [CoreQuerys.generate_mongodb_query, CoreQuerys.mongoFallback_eq]
  · intro q t ts conn
    have hsome := CoreUtils.determine_best_collection_isSome q t ts conn
    obtain ⟨c, hc⟩ := Option.isSome_iff_exists.mp hsome
    have hmem := CoreUtils.determine_best_collection_mem q (t :: ts) conn c hc
    simp [CoreQuerys.generate_mongodb_query, CoreQuerys.mongoFallback_eq, hc, hmem]

/-- C2 witness: the theorem applied at concrete inputs — the scenario
schema with a single table `customers`, and a MongoDB generation run
over collections users, orders with a failing model call. -/
theorem C2_generator_safe_fallbacks_witness :
    CoreQuerys.generate_sql_query ["customers"] (fun s => s) (Except.error ()) =
        "SELECT * FROM customers LIMIT 10" ∧
    (CoreQuerys.generate_mongodb_query "how many users do we have" ["users", "orders"]
        none none (Except.error ())).operation = "find" ∧
    (CoreQuerys.generate_mongodb_query "how many users do we have" ["users", "orders"]
        none none (Except.error ())).collection ∈ ["users", "orders"] :=
  ⟨C2_generator_safe_fallbacks.2.1 (fun s => s),
   (C2_generator_safe_fallbacks.2.2.1 "how many users do we have" ["users", "orders"]
      none none).2.1,
   C2_generator_safe_fallbacks.2.2.2.2 "how many users do we have" "users" ["orders"] none⟩

namespace CoreExec

/-- The `QueryResult` model (app/models/database_query.py lines
141-149), with elapsed time in whole milliseconds. -/
structure QueryResult where
  data : List JVal
  count : Nat
  query_time_ms : Nat
  has_more : Bool
  metadata : List (String × JVal)
deriving Repr

/-- `AIQuery.execute_sql_query` (app/core/querys.py lines 164-206):
dispatch on the lower-cased engine name — an unsupported engine
raises — then cap the rows the engine-specific executor produced at
100.  The executor run is the `run` oracle: `Except.ok rows` for the
normalized rows it fetched, `Except.error` for a raised engine
error, which is re-raised. -/
def execute_sql_query (engine : String) (run : Except Unit (List JVal)) :
    Except Unit (List JVal) :=
  let e := CoreUtils.toLowerS engine
  if e = "sqlite" ∨ e = "mysql" ∨ e = "postgresql" then
    match run with
    | Except.ok rows => Except.ok (if 100 < rows.length then rows.take 100 else rows)
    | Except.error u => Except.error u
  else Except.error ()

/-- The `_id`-to-string conversion applied to each result document
(app/services/db_service.py lines 191-193), with `strO` standing for
Python `str`. -/
def convertIdField (strO : JVal → String) : JVal → JVal
  | JVal.obj d =>
    JVal.obj (d.map (fun p => if p.1 = "_id" then (p.1, JVal.str (strO p.2)) else p))
  | v => v

/-- `execute_aggregation` (app/services/db_service.py lines 156-216):
check collection access, sanitize each pipeline stage with the
deny-list sanitizer, run the aggregation cursor — the `cursorDocs`
oracle, read with `to_list(length=None)`, hence unbounded — convert
`_id` fields, and build the `QueryResult` with `count` the number of
returned documents and `has_more` false. -/
def execute_aggregation (accessOk : Bool) (collection_name : String)
    (pipeline : List (List (String × JVal))) (cursorDocs : Except Unit (List JVal))
    (strO : JVal → String) (elapsedMs : Nat) : Except Unit QueryResult :=
  if !accessOk then Except.error ()
  else
    let safe_pipeline := pipeline.map CoreSec.sanitize_mongo_query
    match cursorDocs with
    | Except.error u => Except.error u
    | Except.ok docs =>
      let results := docs.map (convertIdField strO)
      Except.ok
        { data := results, count := results.length, query_time_ms := elapsedMs,
          has_more := false,
          metadata := [("collection", JVal.str collection_name),
                       ("pipeline_stages", JVal.num safe_pipeline.length)] }

end CoreExec

/-- C1 counterexample: `execute_aggregation` reads its cursor with
`to_list(length=None)` and so returns every document the pipeline
produced — here 101 documents pass through unclipped, refuting the
claimed 100-row cap for the aggregation adapter. -/
theorem C1_aggregation_uncapped_counterexample :
    (CoreExec.execute_aggregation true "users" []
        (Except.ok (List.replicate 101 (JVal.obj []))) (fun _ => "oid") 0).map
      (fun r => decide (r.data.length ≤ 100)) = Except.ok false := by
  have h : (CoreExec.execute_aggregation true "users" []
        (Except.ok (List.replicate 101 (JVal.obj []))) (fun _ => "oid") 0).map
      (fun r => decide (r.data.length ≤ 100)) =
      Except.ok (decide (((List.replicate 101 (JVal.obj [])).map
        (CoreExec.convertIdField (fun _ => "oid"))).length ≤ 100)) := rfl
  rw [h]
  simp

/-- C1 (amended): the 100-row cap holds for SQL execution — every
successful `execute_sql_query` returns at most 100 rows — but not for
`execute_aggregation`, whose result data is exactly the full (id-
converted) cursor output, one row per document produced, with no
cap. -/
theorem C1_result_cap_amended :
    (∀ (engine : String) (run : Except Unit (List JVal)) (rows : List JVal),
        CoreExec.execute_sql_query engine run = Except.ok rows → rows.length ≤ 100) ∧
    (∀ (accessOk : Bool) (collection_name : String)
        (pipeline : List (List (String × JVal))) (docs : List JVal)
        (strO : JVal → String) (elapsedMs : Nat) (r : CoreExec.QueryResult),
        CoreExec.execute_aggregation accessOk collection_name pipeline
            (Except.ok docs) strO elapsedMs = Except.ok r →
        r.data.length = docs.length) := by
  constructor
  · intro engine run rows h
    simp only [CoreExec.execute_sql_query] at h
    by_cases he : (CoreUtils.toLowerS engine = "sqlite" ∨
        CoreUtils.toLowerS engine = "mysql" ∨ CoreUtils.toLowerS engine = "postgresql")
    · rw [if_pos he] at h
      cases run with
      | error u => simp at h
      | ok rows0 =>
        simp only [Except.ok.injEq] at h
        rw [← h]
        by_cases hlen : 100 < rows0.length
        · simp [hlen]
        · simp [hlen]
          omega
    · rw [if_neg he] at h
      simp at h
  · intro accessOk collection_name pipeline docs strO elapsedMs r h
    simp only [CoreExec.execute_aggregation] at h
    cases accessOk with
    | false => simp at h
    | true =>
      simp only [Bool.not_true, Bool.false_eq_true, if_false, Except.ok.injEq] at h
      rw [← h]
      simp

/-- C1 witness: the amended theorem applied at concrete inputs — a
sqlite run returning 150 rows is capped to at most 100, and an
aggregation over 3 documents returns exactly 3. -/
theorem C1_result_cap_amended_witness :
    (∀ rows : List JVal,
        CoreExec.execute_sql_query "sqlite"
            (Except.ok (List.replicate 150 JVal.null)) = Except.ok rows →
        rows.length ≤ 100) ∧
    (∀ r : CoreExec.QueryResult,
        CoreExec.execute_aggregation true "users" []
            (Except.ok [JVal.null, JVal.null, JVal.null]) (fun _ => "oid") 0 =
          Except.ok r →
        r.data.length = 3) :=
  ⟨fun rows h => C1_result_cap_amended.1 "sqlite"
      (Except.ok (List.replicate 150 JVal.null)) rows h,
   fun r h => C1_result_cap_amended.2 true "users" []
      [JVal.null, JVal.null, JVal.null] (fun _ => "oid") 0 r h⟩

namespace CoreQuerys

/-- The `fields_in_results` extraction of
`AIQuery.generate_result_explanation` (app/core/querys.py lines
757-769): keys of the first sampled document when the count is
positive and that document is a dict.  (With a positive count but an
empty data list the Python indexing would itself raise; every call
site sets `count = len(data)`, so only consistent results are
modelled.) -/
def fieldsInResults (result : CoreExec.QueryResult) : List String :=
  if 0 < result.count then
    match (result.data.take 5).head? with
    | some (JVal.obj d) => d.map Prod.fst
    | _ => []
  else []

/-- The field list suffix of the deterministic explanation
(app/core/querys.py lines 891-898). -/
def fieldsSuffix (fields : List String) : String :=
  if fields.isEmpty then ""
  else
    " Fields present in the results include: " ++ String.intercalate ", " (fields.take 5) ++
      (if 5 < fields.length then " and " ++ toString (fields.length - 5) ++ " more."
       else ".")

/-- The elapsed time suffix of the deterministic explanation
(app/core/querys.py lines 900-902); the source formats the float with
one decimal, modelled here for whole milliseconds. -/
def timeSuffix (ms : Nat) : String :=
  if 0 < ms then " The query was executed in " ++ toString ms ++ ".0 ms." else ""

/-- The deterministic fallback of `AIQuery.generate_result_explanation`
(app/core/querys.py lines 869-904), keyed on operation and count. -/
def mongoExplanationFallback (mq : CoreModel.MongoDBQuery)
    (result : CoreExec.QueryResult) : String :=
  if result.count = 0 then
    "No documents were found in the collection " ++ mq.collection ++
      " that match your query."
  else
    (match mq.operation with
     | "findOne" =>
       "The requested document was found in the " ++ mq.collection ++ " collection."
     | "aggregate" =>
       "Aggregation on collection " ++ mq.collection ++ " returned " ++
         toString result.count ++ " results."
     | "insertOne" =>
       "A new document has been successfully inserted into the " ++ mq.collection ++
         " collection."
     | "updateOne" =>
       "A document in the " ++ mq.collection ++ " collection has been successfully updated."
     | "deleteOne" =>
       "A document has been successfully deleted from the " ++ mq.collection ++
         " collection."
     | _ =>
       toString result.count ++ " documents were found in the " ++ mq.collection ++
         " collection.") ++
      fieldsSuffix (fieldsInResults result) ++ timeSuffix result.query_time_ms

/-- `AIQuery.generate_result_explanation` (app/core/querys.py lines
719-904).  `detectO` is the langdetect oracle for the question (`none`
when detection raises), `modelO` the model call.  Lines 811-814 call
`detect(query)` inside try/except with default `es`; line 816 then
calls `detect(query)` again with no protection, so a detection failure
raises out of the function.  On model failure the deterministic
fallback is returned; on success the model text is returned
unchecked. -/
def generate_result_explanation (query : String) (mq : CoreModel.MongoDBQuery)
    (result : CoreExec.QueryResult) (detectO : String → Option String)
    (modelO : Except Unit String) : Except Unit String :=
  let _lang0 := (detectO query).getD "es"
  match detectO query with
  | none => Except.error ()
  | some _lang =>
    match modelO with
    | Except.ok text => Except.ok text
    | Except.error _ => Except.ok (mongoExplanationFallback mq result)

end CoreQuerys

/-- C6: the explanation generator is not raise-free — the duplicated,
unprotected `detect(query)` call at app/core/querys.py line 816
propagates a language-detection failure (e.g. on the digits-only
question `1234`) even though lines 811-814 just caught exactly that
exception; when detection succeeds and the model call fails on a
`find` run with zero documents, the deterministic fallback does hold:
a string containing "No documents were found" and the collection
name, with no model call needed. -/
theorem C6_explanation_detect_bug_and_fallback :
    (∀ (mq : CoreModel.MongoDBQuery) (result : CoreExec.QueryResult)
        (modelO : Except Unit String),
        CoreQuerys.generate_result_explanation "1234" mq result (fun _ => none) modelO =
          Except.error ()) ∧
    (∀ (query lang : String) (mq : CoreModel.MongoDBQuery) (d : List JVal) (t : Nat)
        (hm : Bool) (meta : List (String × JVal)),
        CoreQuerys.generate_result_explanation query mq
            { data := d, count := 0, query_time_ms := t, has_more := hm, metadata := meta }
            (fun _ => some lang) (Except.error ()) =
          Except.ok ("No documents were found in the collection " ++ mq.collection ++
            " that match your query.")) ∧
    CoreQuerys.generate_result_explanation "which documents match"
        (CoreQuerys.mongoFallback "users")
        { data := [], count := 0, query_time_ms := 5, has_more := false, metadata := [] }
        (fun _ => some "en") (Except.error ()) =
      Except.ok "No documents were found in the collection users that match your query." ∧
    CoreUtils.strContains
        "No documents were found in the collection users that match your query."
        "No documents were found" = true ∧
    CoreUtils.strContains
        "No documents were found in the collection users that match your query."
        "users" = true := by
  refine ⟨fun mq result modelO => rfl, fun query lang mq d t hm meta => rfl, ?_, by decide,
    by decide⟩
  rw [CoreQuerys.mongoFallback_eq]
  rfl

namespace CoreIntrospect

/-- One row of `PRAGMA table_info` — (cid, name, type, notnull,
dflt_value, pk) — as consumed by `get_sql_database_info`
(app/services/db_service.py lines 330-338). -/
structure PragmaRow where
  cid : Nat
  name : String
  declType : String
  notnull : Nat
  dflt_value : Option String
  pk : Nat
deriving Repr, DecidableEq

/-- A column entry of the per-table schema dict. -/
structure FieldSchema where
  type : String
  nullable : Bool
  primary_key : Bool
deriving Repr, DecidableEq

/-- One per-table entry of the introspection result: `approx_count` is
either the count or the literal string stored on a failed count
query. -/
structure TableInfo where
  schema : List (String × FieldSchema)
  approx_count : Int ⊕ String
  sample : List (String × String)
deriving Repr, DecidableEq

/-- Per-table oracle for the sqlite branch of `get_sql_database_info`:
the PRAGMA rows, the outcome of the `SELECT COUNT(*)` query, and the
outcome of the one-row sample query (`Except.ok none` when `fetchone`
yields no row, values already rendered through Python `str`). -/
structure SqliteTableEnv where
  name : String
  columns : List PragmaRow
  countRes : Except Unit Int
  sampleRes : Except Unit (Option (List String))

/-- The per-table body of the sqlite branch (app/services/db_service.py
lines 316-356): a failed count is recorded as the string
`desconocido`; a failed or short sample row leaves the sample dict
empty (Python hits an IndexError mid-loop and the handler discards the
dict). -/
def sqliteTableInfo (t : SqliteTableEnv) : TableInfo :=
  { schema := t.columns.map
      (fun c => (c.name,
        { type := c.declType, nullable := c.notnull = 0, primary_key := c.pk = 1 })),
    approx_count :=
      match t.countRes with
      | Except.ok n => Sum.inl n
      | Except.error _ => Sum.inr "desconocido",
    sample :=
      match t.sampleRes with
      | Except.error _ => []
      | Except.ok none => []
      | Except.ok (some vals) =>
        if vals.length < t.columns.length then []
        else (t.columns.map PragmaRow.name).zip vals }

/-- The sqlite table loop of `get_sql_database_info`
(app/services/db_service.py lines 301-359): every listed table is
introspected in order — per-table count and sample failures are caught
inside the loop and never abort it.  (A failure of the table-listing
query itself is caught by the function's outer handler and out of
scope here.) -/
def get_sql_database_info_sqlite (tables : List SqliteTableEnv) :
    List (String × TableInfo) :=
  tables.map (fun t => (t.name, sqliteTableInfo t))

end CoreIntrospect

/-- C7 counterexample: a table whose count query fails is reported
with `approx_count` the Spanish string `desconocido`, not the string
`unknown` the claim states. -/
theorem C7_count_desconocido_counterexample :
    (CoreIntrospect.sqliteTableInfo
        { name := "users", columns := [], countRes := Except.error (),
          sampleRes := Except.ok none }).approx_count = Sum.inr "desconocido" ∧
    (CoreIntrospect.sqliteTableInfo
        { name := "users", columns := [], countRes := Except.error (),
          sampleRes := Except.ok none }).approx_count ≠ Sum.inr "unknown" := by
  exact ⟨rfl, by decide⟩

/-- C7 (amended): a failed approximate-count query aborts neither the
table nor the rest of the introspection — the result lists every table
in order regardless of the count outcomes — and the failed count is
reported as the string `desconocido` (Spanish for "unknown", the
literal in the source), not `unknown`. -/
theorem C7_count_failure_not_aborting_amended :
    (∀ tables : List CoreIntrospect.SqliteTableEnv,
        (CoreIntrospect.get_sql_database_info_sqlite tables).map Prod.fst =
          tables.map CoreIntrospect.SqliteTableEnv.name) ∧
    (∀ (name : String) (columns : List CoreIntrospect.PragmaRow)
        (sampleRes : Except Unit (Option (List String))),
        (CoreIntrospect.sqliteTableInfo
            { name := name, columns := columns, countRes := Except.error (),
              sampleRes := sampleRes }).approx_count = Sum.inr "desconocido") := by
  constructor
  · intro tables
    simp [CoreIntrospect.get_sql_database_info_sqlite]
  · intro name columns sampleRes
    rfl

namespace CoreCache

/-- `Cache.get` (app/core/cache.py lines 113-150).  `enableCache` is
`settings.CACHE.ENABLE_CACHE`; `redisGet` the Redis read —
`Except.error` a raised store exception, `Except.ok none` a missing
key; `jsonO`, `pickleO` and `decodeO` the three deserialization
attempts tried in order on the stored payload, `rawVal` the payload
returned as-is when all three fail.  The outer handler turns any
raised store error into the supplied default. -/
def cacheGet {β α : Type} (enableCache : Bool) (redisGet : Except Unit (Option β))
    (jsonO pickleO decodeO : β → Option α) (rawVal : β → α) (dflt : α) : α :=
  if !enableCache then dflt
  else
    match redisGet with
    | Except.error _ => dflt
    | Except.ok none => dflt
    | Except.ok (some v) =>
      match jsonO v with
      | some a => a
      | none =>
        match pickleO v with
        | some a => a
        | none =>
          match decodeO v with
          | some a => a
          | none => rawVal v

end CoreCache

/-- C9: when the cache store read raises — the store is unavailable —
`Cache.get` returns the supplied default, behaving as a cache miss for
every deserialization oracle and whether or not the cache is enabled,
and propagates no error. -/
theorem C9_cache_get_degrades_to_miss :
    ∀ {β α : Type} (enableCache : Bool) (jsonO pickleO decodeO : β → Option α)
      (rawVal : β → α) (dflt : α),
      CoreCache.cacheGet enableCache (Except.error ()) jsonO pickleO decodeO rawVal dflt =
        dflt := by
  intro β α enableCache jsonO pickleO decodeO rawVal dflt
  cases enableCache <;> rfl

namespace CoreSchema

/-- One field entry of the inferred collection schema: the observed
type name and the `example` excerpt (app/services/db_service.py lines
60-64). -/
structure FieldInfo where
  type : String
  exampleVal : String
deriving Repr, DecidableEq

/-- Python `type(value).__name__` on JSON-like values. -/
def pyTypeName : JVal → String
  | JVal.str _ => "str"
  | JVal.num _ => "int"
  | JVal.bool _ => "bool"
  | JVal.null => "NoneType"
  | JVal.arr _ => "list"
  | JVal.obj _ => "dict"

/-- `str(value)[:50] + ("..." if len(str(value)) > 50 else "")`. -/
def truncatedExample (s : String) : String :=
  if 50 < s.data.length then String.mk (s.data.take 50) ++ "..." else s

/-- Replace the value bound to a key, keeping position and the rest. -/
def replaceValue : List (String × FieldInfo) → String → FieldInfo → List (String × FieldInfo)
  | [], _, _ => []
  | (k, f) :: rest, key, nf =>
    if k = key then (k, nf) :: rest else (k, f) :: replaceValue rest key nf

/-- The per-field step of `get_collection_schema`
(app/services/db_service.py lines 52-68): `_id` is skipped, a new
field is recorded with its type and example, and an existing field
whose observed type differs is re-marked `mixed(old, new)`.  `strO`
stands for Python `str`. -/
def schemaStep (strO : JVal → String) (schema : List (String × FieldInfo))
    (key : String) (v : JVal) : List (String × FieldInfo) :=
  if key = "_id" then schema
  else
    match schema.lookup key with
    | none =>
      schema ++ [(key, { type := pyTypeName v, exampleVal := truncatedExample (strO v) })]
    | some fi =>
      if fi.type ≠ pyTypeName v then
        replaceValue schema key
          { fi with type := "mixed(" ++ fi.type ++ ", " ++ pyTypeName v ++ ")" }
      else schema

/-- The per-document loop of `get_collection_schema`. -/
def processDoc (strO : JVal → String) (schema : List (String × FieldInfo))
    (doc : List (String × JVal)) : List (String × FieldInfo) :=
  doc.foldl (fun s p => schemaStep strO s p.1 p.2) schema

/-- `get_collection_schema` (app/services/db_service.py lines 29-70)
on the sampled documents: an empty sample yields the empty schema,
else the documents are folded through the per-field step. -/
def get_collection_schema (strO : JVal → String)
    (documents : List (List (String × JVal))) : List (String × FieldInfo) :=
  if documents.isEmpty then []
  else documents.foldl (processDoc strO) []

theorem lookup_append_single_ne {k key : String} {schema : List (String × FieldInfo)}
    {fi : FieldInfo} (hne : key ≠ k) (h : schema.lookup k = none) :
    (schema ++ [(key, fi)]).lookup k = none := by
  induction schema with
  | nil => simp [List.lookup, beq_eq_false_iff_ne.mpr (fun he => hne he.symm)]
  | cons p rest ih =>
    simp only [List.cons_append, List.lookup] at h ⊢
    cases hk : (k == p.1) with
    | true => simp [hk] at h
    | false =>
      simp only [hk] at h ⊢
      exact ih h

theorem lookup_replaceValue_none {k key : String} {schema : List (String × FieldInfo)}
    {nf : FieldInfo} (h : schema.lookup k = none) :
    (replaceValue schema key nf).lookup k = none := by
  induction schema with
  | nil => simp [replaceValue, List.lookup]
  | cons p rest ih =>
    simp only [List.lookup] at h
    cases hk : (k == p.1) with
    | true => simp [hk] at h
    | false =>
      simp only [hk] at h
      simp only [replaceValue]
      by_cases hkey : p.1 = key
      · rw [if_pos hkey]
        simp only [List.lookup, hk]
        exact h
      · rw [if_neg hkey]
        simp only [List.lookup, hk]
        exact ih h

theorem lookup_id_schemaStep (strO : JVal → String) (schema : List (String × FieldInfo))
    (key : String) (v : JVal) (h : schema.lookup "_id" = none) :
    (schemaStep strO schema key v).lookup "_id" = none := by
  simp only [schemaStep]
  split
  · exact h
  · rename_i hid
    split
    · exact lookup_append_single_ne hid h
    · split
      · exact lookup_replaceValue_none h
      · exact h

theorem lookup_id_processDoc (strO : JVal → String) (schema : List (String × FieldInfo))
    (doc : List (String × JVal)) (h : schema.lookup "_id" = none) :
    (processDoc strO schema doc).lookup "_id" = none := by
  induction doc generalizing schema with
  | nil => exact h
  | cons p rest ih =>
    exact ih _ (lookup_id_schemaStep strO schema p.1 p.2 h)

theorem lookup_id_foldl (strO : JVal → String) (docs : List (List (String × JVal)))
    (schema : List (String × FieldInfo)) (h : schema.lookup "_id" = none) :
    (docs.foldl (processDoc strO) schema).lookup "_id" = none := by
  induction docs generalizing schema with
  | nil => exact h
  | cons d rest ih =>
    exact ih _ (lookup_id_processDoc strO schema d h)

end CoreSchema

/-- C10: the schema inferred from any sample of documents never
contains the `_id` key — the loop skips it before recording or mixing
types, whatever the observed value types. -/
theorem C10_schema_omits_id :
    ∀ (strO : JVal → String) (documents : List (List (String × JVal))),
      (CoreSchema.get_collection_schema strO documents).lookup "_id" = none := by
  intro strO documents
  simp only [CoreSchema.get_collection_schema]
  by_cases h : documents.isEmpty
  · rw [if_pos h]
    rfl
  · rw [if_neg h]
    exact CoreSchema.lookup_id_foldl strO documents [] rfl
